import Mathlib

/-!
Shallow embedding of the position/camera smoothing core of the
HTML-WebGL-Animator-Route-Plotter repository.

Geographic coordinates and physics state are modelled over the real
numbers (the source uses IEEE doubles; the claims under study concern
the exact-arithmetic control flow and algebra of the code, not float
rounding).  The track sampler of unified-animation.js works on integer
millisecond timestamps and rational interpolation fractions, so it is
modelled over the rationals to keep it decidable.

Every definition is translated from the repository source:
  - GeoMath / Physics / processPosition / onmessage: the two embedded
    position-worker documents of index.html (a non-debug variant and a
    debug-instrumented variant that additionally handles
    bracket-interpolation messages);
  - setSpeed / updatePosition / updateCamera / calculateCameraOffset:
    unified-animation.js.
-/

/-- Geographic point in WGS84 degrees, source object shape with lng and lat. -/
structure GeoPoint where
  lng : ℝ
  lat : ℝ

theorem GeoPoint_eq_iff (p q : GeoPoint) : p = q ↔ p.lng = q.lng ∧ p.lat = q.lat := by
  cases p; cases q; simp

/-- Planar vector, source object shape with x and y, used for Mercator velocity. -/
structure Vec2 where
  x : ℝ
  y : ℝ

/-- CONFIG.mercatorScale = 1 / (2 * Math.PI). -/
noncomputable def mercatorScale : ℝ := 1 / (2 * Real.pi)

/-- CONFIG.earthRadius = 6371e3 meters. -/
def earthRadius : ℝ := 6371000

/-- CONFIG.maxAcceleration = 3.0 m/s^2. -/
def maxAcceleration : ℝ := 3.0

/-- CONFIG.maxSpeed = 55.0 m/s. -/
def maxSpeed : ℝ := 55.0

/-- CONFIG.minSpeedThreshold = 0.1. -/
def minSpeedThreshold : ℝ := 0.1

/-- CONFIG.positionSmoothing = 0.85. -/
def positionSmoothing : ℝ := 0.85

/-- CONFIG.bearingSmoothing = 0.75. -/
def bearingSmoothing : ℝ := 0.75

/-- CONFIG.speedSmoothing = 0.8. -/
def speedSmoothing : ℝ := 0.8

/-- GeoMath.toRadians. -/
noncomputable def toRadians (degrees : ℝ) : ℝ := degrees * (Real.pi / 180)

/-- GeoMath.toDegrees. -/
noncomputable def toDegrees (radians : ℝ) : ℝ := radians * (180 / Real.pi)

/-- First while loop of GeoMath.normalizeBearing:
subtract 360 while the value exceeds 360. -/
noncomputable def subLoop (b : ℝ) : ℝ :=
  if h : b > 360 then subLoop (b - 360) else b
termination_by (⌈(b - 360) / 360⌉).toNat
decreasing_by
  have hb : (0:ℝ) < b - 360 := by linarith
  have h1 : (0:ℝ) < (b - 360) / 360 := div_pos hb (by norm_num)
  have h2 : 1 ≤ ⌈(b - 360) / 360⌉ := Int.ceil_pos.mpr h1
  have key : (b - 360 - 360) / 360 = (b - 360) / 360 - 1 := by ring
  rw [key, Int.ceil_sub_one]
  omega

/-- Second while loop of GeoMath.normalizeBearing:
add 360 while the value is negative. -/
noncomputable def addLoop (b : ℝ) : ℝ :=
  if h : b < 0 then addLoop (b + 360) else b
termination_by (⌈-b / 360⌉).toNat
decreasing_by
  have hb : (0:ℝ) < -b := by linarith
  have h1 : (0:ℝ) < -b / 360 := div_pos hb (by norm_num)
  have h2 : 1 ≤ ⌈-b / 360⌉ := Int.ceil_pos.mpr h1
  have key : -(b + 360) / 360 = -b / 360 - 1 := by ring
  rw [key, Int.ceil_sub_one]
  omega

/-- GeoMath.normalizeBearing: the two reduction loops in sequence. -/
noncomputable def normalizeBearing (bearing : ℝ) : ℝ := addLoop (subLoop bearing)

theorem subLoop_step {b : ℝ} (h : b > 360) : subLoop b = subLoop (b - 360) := by
  conv_lhs => rw [subLoop]
  exact dif_pos h

theorem subLoop_base {b : ℝ} (h : ¬ b > 360) : subLoop b = b := by
  conv_lhs => rw [subLoop]
  exact dif_neg h

theorem addLoop_step {b : ℝ} (h : b < 0) : addLoop b = addLoop (b + 360) := by
  conv_lhs => rw [addLoop]
  exact dif_pos h

theorem addLoop_base {b : ℝ} (h : ¬ b < 0) : addLoop b = b := by
  conv_lhs => rw [addLoop]
  exact dif_neg h

theorem subLoop_le (b : ℝ) : subLoop b ≤ 360 := by
  by_cases hb : b > 360
  · rw [subLoop_step hb]; exact subLoop_le (b - 360)
  · rw [subLoop_base hb]; exact not_lt.mp hb
termination_by (⌈(b - 360) / 360⌉).toNat
decreasing_by
  have hb2 : (0:ℝ) < b - 360 := by linarith
  have h1 : (0:ℝ) < (b - 360) / 360 := div_pos hb2 (by norm_num)
  have h2 : 1 ≤ ⌈(b - 360) / 360⌉ := Int.ceil_pos.mpr h1
  have key : (b - 360 - 360) / 360 = (b - 360) / 360 - 1 := by ring
  rw [key, Int.ceil_sub_one]
  omega

theorem addLoop_nonneg (b : ℝ) : 0 ≤ addLoop b := by
  by_cases hb : b < 0
  · rw [addLoop_step hb]; exact addLoop_nonneg (b + 360)
  · rw [addLoop_base hb]; exact not_lt.mp hb
termination_by (⌈-b / 360⌉).toNat
decreasing_by
  have hb2 : (0:ℝ) < -b := by linarith
  have h1 : (0:ℝ) < -b / 360 := div_pos hb2 (by norm_num)
  have h2 : 1 ≤ ⌈-b / 360⌉ := Int.ceil_pos.mpr h1
  have key : -(b + 360) / 360 = -b / 360 - 1 := by ring
  rw [key, Int.ceil_sub_one]
  omega

theorem addLoop_le (b : ℝ) (hb : b ≤ 360) : addLoop b ≤ 360 := by
  by_cases hneg : b < 0
  · rw [addLoop_step hneg]; exact addLoop_le (b + 360) (by linarith)
  · rw [addLoop_base hneg]; exact hb
termination_by (⌈-b / 360⌉).toNat
decreasing_by
  have hb2 : (0:ℝ) < -b := by linarith
  have h1 : (0:ℝ) < -b / 360 := div_pos hb2 (by norm_num)
  have h2 : 1 ≤ ⌈-b / 360⌉ := Int.ceil_pos.mpr h1
  have key : -(b + 360) / 360 = -b / 360 - 1 := by ring
  rw [key, Int.ceil_sub_one]
  omega

theorem normalizeBearing_nonneg (b : ℝ) : 0 ≤ normalizeBearing b :=
  addLoop_nonneg (subLoop b)

theorem normalizeBearing_le (b : ℝ) : normalizeBearing b ≤ 360 :=
  addLoop_le (subLoop b) (subLoop_le b)

theorem normalizeBearing_at_360 : normalizeBearing 360 = 360 := by
  unfold normalizeBearing
  rw [subLoop_base (by norm_num), addLoop_base (by norm_num)]

theorem normalizeBearing_at_0 : normalizeBearing 0 = 0 := by
  unfold normalizeBearing
  rw [subLoop_base (by norm_num), addLoop_base (by norm_num)]

theorem normalizeBearing_period_of_ne_zero (b : ℝ) (hb : b ≠ 0) :
    normalizeBearing b = normalizeBearing (b + 360) := by
  rcases lt_trichotomy b 0 with hneg | hzero | hpos
  · unfold normalizeBearing
    rw [subLoop_base (by linarith), subLoop_base (by linarith),
      addLoop_step hneg]
  · exact absurd hzero hb
  · unfold normalizeBearing
    have : subLoop (b + 360) = subLoop b := by
      rw [subLoop_step (by linarith), show b + 360 - 360 = b by ring]
    rw [this]

/-- Fuel-indexed version of the first normalizeBearing while loop, used to
express that the unbounded loop terminates. -/
noncomputable def subLoopFuel : ℕ → ℝ → Option ℝ
  | 0, _ => none
  | n + 1, b => if b > 360 then subLoopFuel n (b - 360) else some b

/-- Fuel-indexed version of the second normalizeBearing while loop. -/
noncomputable def addLoopFuel : ℕ → ℝ → Option ℝ
  | 0, _ => none
  | n + 1, b => if b < 0 then addLoopFuel n (b + 360) else some b

/-- Fuel-indexed normalizeBearing: run the subtraction loop, then the
addition loop, failing if either runs out of fuel. -/
noncomputable def normalizeBearingFuel (n : ℕ) (b : ℝ) : Option ℝ :=
  (subLoopFuel n b).bind (addLoopFuel n)

theorem subLoopFuel_mono {n : ℕ} {b v : ℝ} (k : ℕ) (h : subLoopFuel n b = some v) :
    subLoopFuel (n + k) b = some v := by
  induction n generalizing b with
  | zero => simp [subLoopFuel] at h
  | succ m ih =>
    rw [subLoopFuel] at h
    rw [show m + 1 + k = m + k + 1 by omega, subLoopFuel]
    by_cases hb : b > 360
    · rw [if_pos hb] at h ⊢; exact ih h
    · rw [if_neg hb] at h ⊢; exact h

theorem addLoopFuel_mono {n : ℕ} {b v : ℝ} (k : ℕ) (h : addLoopFuel n b = some v) :
    addLoopFuel (n + k) b = some v := by
  induction n generalizing b with
  | zero => simp [addLoopFuel] at h
  | succ m ih =>
    rw [addLoopFuel] at h
    rw [show m + 1 + k = m + k + 1 by omega, addLoopFuel]
    by_cases hb : b < 0
    · rw [if_pos hb] at h ⊢; exact ih h
    · rw [if_neg hb] at h ⊢; exact h

theorem subLoopFuel_terminates (b : ℝ) : ∃ n, subLoopFuel n b = some (subLoop b) := by
  by_cases hb : b > 360
  · obtain ⟨n, hn⟩ := subLoopFuel_terminates (b - 360)
    exact ⟨n + 1, by rw [subLoopFuel, if_pos hb, hn, subLoop_step hb]⟩
  · exact ⟨1, by rw [subLoopFuel, if_neg hb, subLoop_base hb]⟩
termination_by (⌈(b - 360) / 360⌉).toNat
decreasing_by
  have hb2 : (0:ℝ) < b - 360 := by linarith
  have h1 : (0:ℝ) < (b - 360) / 360 := div_pos hb2 (by norm_num)
  have h2 : 1 ≤ ⌈(b - 360) / 360⌉ := Int.ceil_pos.mpr h1
  have key : (b - 360 - 360) / 360 = (b - 360) / 360 - 1 := by ring
  rw [key, Int.ceil_sub_one]
  omega

theorem addLoopFuel_terminates (b : ℝ) : ∃ n, addLoopFuel n b = some (addLoop b) := by
  by_cases hb : b < 0
  · obtain ⟨n, hn⟩ := addLoopFuel_terminates (b + 360)
    exact ⟨n + 1, by rw [addLoopFuel, if_pos hb, hn, addLoop_step hb]⟩
  · exact ⟨1, by rw [addLoopFuel, if_neg hb, addLoop_base hb]⟩
termination_by (⌈-b / 360⌉).toNat
decreasing_by
  have hb2 : (0:ℝ) < -b := by linarith
  have h1 : (0:ℝ) < -b / 360 := div_pos hb2 (by norm_num)
  have h2 : 1 ≤ ⌈-b / 360⌉ := Int.ceil_pos.mpr h1
  have key : -(b + 360) / 360 = -b / 360 - 1 := by ring
  rw [key, Int.ceil_sub_one]
  omega

/-- C10: normalizeBearing is total on every (finite) real input: both of its
while loops terminate, i.e. some finite fuel suffices for the fuel-indexed
loops to return the value computed by the loop-based definition. -/
theorem c10_normalizeBearing_terminates (b : ℝ) :
    ∃ n : ℕ, normalizeBearingFuel n b = some (normalizeBearing b) := by
  obtain ⟨n1, h1⟩ := subLoopFuel_terminates b
  obtain ⟨n2, h2⟩ := addLoopFuel_terminates (subLoop b)
  refine ⟨n1 + n2, ?_⟩
  rw [normalizeBearingFuel, subLoopFuel_mono n2 h1, Option.some_bind]
  rw [show n1 + n2 = n2 + n1 by omega]
  exact addLoopFuel_mono n1 h2

/-- C4 counterexample: normalizeBearing(360) = 360, which is not in the
half-open interval [0,360), and normalizeBearing(0) = 0 differs from
normalizeBearing(0+360) = 360, so neither conjunct of the claim holds for
every real input. -/
theorem c4_bearing_normalization_counterexample :
    ¬ (normalizeBearing 360 < 360) ∧
      normalizeBearing 0 ≠ normalizeBearing (0 + 360) := by
  constructor
  · rw [normalizeBearing_at_360]; norm_num
  · rw [normalizeBearing_at_0, show (0:ℝ) + 360 = 360 by norm_num,
      normalizeBearing_at_360]
    norm_num

/-- C4 amended: for every real d, normalizeBearing(d) lies in the closed
interval [0,360] (the value 360 is attained, e.g. at d = 360), and
normalizeBearing(d) = normalizeBearing(d+360) holds for every d other than
d = 0 (where the left side is 0 and the right side is 360). -/
theorem c4_bearing_normalization_amended :
    (∀ d : ℝ, 0 ≤ normalizeBearing d ∧ normalizeBearing d ≤ 360) ∧
    (∀ d : ℝ, d ≠ 0 → normalizeBearing d = normalizeBearing (d + 360)) :=
  ⟨fun d => ⟨normalizeBearing_nonneg d, normalizeBearing_le d⟩,
   fun d hd => normalizeBearing_period_of_ne_zero d hd⟩

/-- C4 witness: the amended periodicity instantiated at d = 5. -/
theorem c4_bearing_normalization_witness :
    (5:ℝ) ≠ 0 ∧ normalizeBearing 5 = normalizeBearing (5 + 360) :=
  ⟨by norm_num, c4_bearing_normalization_amended.2 5 (by norm_num)⟩

/-- Physics.smooth: exponential smoothing of a scalar toward a target. -/
def smooth (current target factor : ℝ) : ℝ :=
  current + (target - current) * factor

/-- Physics.smoothBearing: wraparound-aware exponential bearing smoothing. -/
noncomputable def smoothBearing (current target factor : ℝ) : ℝ :=
  let diff := target - current
  let diff2 := if |diff| > 180 then (if diff > 0 then diff - 360 else diff + 360) else diff
  normalizeBearing (current + diff2 * factor)

/-- C6: bearing smoothing takes the shorter rotational path across the
0/360 wraparound: one step from current 350 toward target 10 with factor
0.75 uses diff = 20 (i.e. equals normalize(350 + 20*0.75)) and yields
exactly 5 degrees. -/
theorem c6_smoothBearing_wraparound :
    smoothBearing 350 10 0.75 = 5 ∧
      smoothBearing 350 10 0.75 = normalizeBearing (350 + 20 * 0.75) := by
  have habs : |(10:ℝ) - 350| > 180 := by
    rw [show (10:ℝ) - 350 = -340 by norm_num, abs_neg, abs_of_nonneg (by norm_num)]
    norm_num
  have hneg : ¬ ((10:ℝ) - 350 > 0) := by norm_num
  have key : smoothBearing 350 10 0.75 = normalizeBearing 365 := by
    unfold smoothBearing
    show normalizeBearing (350 +
      (if |(10:ℝ) - 350| > 180 then
        (if (10:ℝ) - 350 > 0 then 10 - 350 - 360 else 10 - 350 + 360)
      else 10 - 350) * 0.75) = normalizeBearing 365
    rw [if_pos habs, if_neg hneg]
    norm_num
  have h365 : normalizeBearing 365 = 5 := by
    unfold normalizeBearing
    rw [subLoop_step (by norm_num), show (365:ℝ) - 360 = 5 by norm_num,
      subLoop_base (by norm_num), addLoop_base (by norm_num)]
  refine ⟨key.trans h365, ?_⟩
  rw [key, show (350:ℝ) + 20 * 0.75 = 365 by norm_num]

/-- JS Math.atan2, defined by quadrant from the one-argument arctangent. -/
noncomputable def atan2 (y x : ℝ) : ℝ :=
  if x > 0 then Real.arctan (y / x)
  else if x < 0 ∧ 0 ≤ y then Real.arctan (y / x) + Real.pi
  else if x < 0 ∧ y < 0 then Real.arctan (y / x) - Real.pi
  else if x = 0 ∧ y > 0 then Real.pi / 2
  else if x = 0 ∧ y < 0 then -(Real.pi / 2)
  else 0

/-- GeoMath.toMercator. -/
noncomputable def toMercator (lng lat : ℝ) : Vec2 :=
  ⟨lng * mercatorScale,
   Real.log (Real.tan (Real.pi / 4 + toRadians lat / 2)) * mercatorScale⟩

/-- GeoMath.fromMercator. -/
noncomputable def fromMercator (x y : ℝ) : GeoPoint :=
  ⟨x / mercatorScale,
   toDegrees (2 * Real.arctan (Real.exp (y / mercatorScale)) - Real.pi / 2)⟩

/-- GeoMath.calculateDistance: haversine distance in meters. -/
noncomputable def calculateDistance (pos1 pos2 : GeoPoint) : ℝ :=
  let f1 := toRadians pos1.lat
  let f2 := toRadians pos2.lat
  let df := toRadians (pos2.lat - pos1.lat)
  let dl := toRadians (pos2.lng - pos1.lng)
  let a := Real.sin (df / 2) * Real.sin (df / 2) +
    Real.cos f1 * Real.cos f2 * Real.sin (dl / 2) * Real.sin (dl / 2)
  let c := 2 * atan2 (Real.sqrt a) (Real.sqrt (1 - a))
  earthRadius * c

/-- GeoMath.calculateBearing: initial great-circle bearing in degrees. -/
noncomputable def calculateBearing (pos1 pos2 : GeoPoint) : ℝ :=
  let f1 := toRadians pos1.lat
  let f2 := toRadians pos2.lat
  let l1 := toRadians pos1.lng
  let l2 := toRadians pos2.lng
  let y := Real.sin (l2 - l1) * Real.cos f2
  let x := Real.cos f1 * Real.sin f2 - Real.sin f1 * Real.cos f2 * Real.cos (l2 - l1)
  normalizeBearing (toDegrees (atan2 y x))

/-- Physics.updateVelocity: finite-difference velocity in Mercator space. -/
noncomputable def updateVelocity (oldPos newPos : GeoPoint) (deltaTime : ℝ) : Vec2 :=
  let merc1 := toMercator oldPos.lng oldPos.lat
  let merc2 := toMercator newPos.lng newPos.lat
  ⟨(merc2.x - merc1.x) / deltaTime, (merc2.y - merc1.y) / deltaTime⟩

/-- Physics.updateAcceleration: finite-difference acceleration. -/
noncomputable def updateAcceleration (oldVel newVel : Vec2) (deltaTime : ℝ) : Vec2 :=
  ⟨(newVel.x - oldVel.x) / deltaTime, (newVel.y - oldVel.y) / deltaTime⟩

/-- Physics.clampAcceleration: uniform scaling down to CONFIG.maxAcceleration. -/
noncomputable def clampAcceleration (acc : Vec2) : Vec2 :=
  let magnitude := Real.sqrt (acc.x * acc.x + acc.y * acc.y)
  if magnitude > maxAcceleration then
    let scale := maxAcceleration / magnitude
    ⟨acc.x * scale, acc.y * scale⟩
  else acc

/-- Physics.lerpPosition of the debug worker document: planar linear
interpolation of lng/lat. -/
def lerpPosition (pos1 pos2 : GeoPoint) (t : ℝ) : GeoPoint :=
  ⟨pos1.lng + (pos2.lng - pos1.lng) * t, pos1.lat + (pos2.lat - pos1.lat) * t⟩

/-- Unit-sphere Cartesian coordinates of a point, as computed inside
Physics.slerpPosition (x, y, z from colatitude phi and longitude theta). -/
noncomputable def sphereVec (p : GeoPoint) : ℝ × ℝ × ℝ :=
  let phi := toRadians (90 - p.lat)
  let theta := toRadians p.lng
  (Real.sin phi * Real.cos theta, Real.sin phi * Real.sin theta, Real.cos phi)

/-- Dot product of the two unit vectors computed inside Physics.slerpPosition. -/
noncomputable def slerpDot (pos1 pos2 : GeoPoint) : ℝ :=
  let v1 := sphereVec pos1
  let v2 := sphereVec pos2
  v1.1 * v2.1 + v1.2.1 * v2.2.1 + v1.2.2 * v2.2.2

/-- Physics.slerpPosition of the debug worker document: spherical linear
interpolation with a planar-lerp fallback when the dot product of the unit
vectors exceeds 0.9999. -/
noncomputable def slerpPosition (pos1 pos2 : GeoPoint) (t : ℝ) : GeoPoint :=
  let dot := slerpDot pos1 pos2
  if dot > 0.9999 then lerpPosition pos1 pos2 t
  else
    let v1 := sphereVec pos1
    let v2 := sphereVec pos2
    let omega := Real.arccos (max (-1) (min 1 dot))
    let sinOmega := Real.sin omega
    let factor1 := Real.sin ((1 - t) * omega) / sinOmega
    let factor2 := Real.sin (t * omega) / sinOmega
    let x := v1.1 * factor1 + v2.1 * factor2
    let y := v1.2.1 * factor1 + v2.2.1 * factor2
    let z := v1.2.2 * factor1 + v2.2.2 * factor2
    let phi := Real.arccos z
    let theta := atan2 y x
    ⟨toDegrees theta, 90 - toDegrees phi⟩

/-- Worker estimator state, the mutable module-level state object of the
position-worker documents. -/
structure EstState where
  position : Option GeoPoint
  velocity : Vec2
  acceleration : Vec2
  bearing : ℝ
  speed : ℝ
  lastTimestamp : ℝ
  lastValidBearing : ℝ

theorem EstState_eq_iff (s u : EstState) :
    s = u ↔ s.position = u.position ∧ s.velocity = u.velocity ∧
      s.acceleration = u.acceleration ∧ s.bearing = u.bearing ∧
      s.speed = u.speed ∧ s.lastTimestamp = u.lastTimestamp ∧
      s.lastValidBearing = u.lastValidBearing := by
  cases s; cases u; simp

/-- Initial worker state, as declared in both worker documents. -/
def initState : EstState :=
  { position := none, velocity := ⟨0, 0⟩, acceleration := ⟨0, 0⟩,
    bearing := 0, speed := 0, lastTimestamp := 0, lastValidBearing := 0 }

/-- The position object of a worker message (e.data.position).  Optional
fields model JS object properties that may be absent. -/
structure PositionMsg where
  lng : ℝ
  lat : ℝ
  bearing : Option ℝ
  t : Option ℝ
  targetLng : Option ℝ
  targetLat : Option ℝ
  targetBearing : Option ℝ

/-- JS `a || b` on an optional numeric field: the default is used when the
field is absent or equal to 0, since 0 is falsy in JS. -/
noncomputable def jsOr (o : Option ℝ) (d : ℝ) : ℝ :=
  match o with
  | none => d
  | some v => if v = 0 then d else v

/-- processPosition of the non-debug position-worker document: seed on the
first fix, absorb non-increasing timestamps as a no-op, otherwise run the
physics smoothing update. -/
noncomputable def processPosition (s : EstState) (newPosition : PositionMsg)
    (timestamp : ℝ) : EstState :=
  match s.position with
  | none =>
      { s with position := some ⟨newPosition.lng, newPosition.lat⟩,
               lastTimestamp := timestamp,
               lastValidBearing := jsOr newPosition.bearing 0 }
  | some statePos =>
      let deltaTime := (timestamp - s.lastTimestamp) / 1000
      if deltaTime ≤ 0 then s
      else
        let newPos : GeoPoint := ⟨newPosition.lng, newPosition.lat⟩
        let distance := calculateDistance statePos newPos
        let bearingPair :=
          if distance > minSpeedThreshold then
            let nb := calculateBearing statePos newPos
            (nb, nb)
          else (s.lastValidBearing, s.lastValidBearing)
        let newVelocity := updateVelocity statePos newPos deltaTime
        let newAcceleration := updateAcceleration s.velocity newVelocity deltaTime
        let velocity : Vec2 :=
          ⟨smooth s.velocity.x newVelocity.x speedSmoothing,
           smooth s.velocity.y newVelocity.y speedSmoothing⟩
        let acceleration := clampAcceleration newAcceleration
        let bearing := smoothBearing s.bearing bearingPair.1 bearingSmoothing
        let speed0 := distance / deltaTime
        let speed := if speed0 > maxSpeed then maxSpeed else speed0
        let position : GeoPoint :=
          ⟨smooth statePos.lng newPosition.lng positionSmoothing,
           smooth statePos.lat newPosition.lat positionSmoothing⟩
        { position := some position, velocity := velocity,
          acceleration := acceleration, bearing := bearing, speed := speed,
          lastTimestamp := timestamp, lastValidBearing := bearingPair.2 }

/-- processPosition of the debug-instrumented position-worker document: it
first checks for a bracket-interpolation request (properties t, targetLng,
targetLat all present) and handles it by slerp position interpolation and
shortest-path linear bearing interpolation, leaving velocity, acceleration
and speed untouched; otherwise it runs the same raw-fix code as the
non-debug variant. -/
noncomputable def processPositionDebug (s : EstState) (newPosition : PositionMsg)
    (timestamp : ℝ) : EstState :=
  match newPosition.t, newPosition.targetLng, newPosition.targetLat with
  | some t, some targetLng, some targetLat =>
      let sourcePos : GeoPoint := ⟨newPosition.lng, newPosition.lat⟩
      let targetPos : GeoPoint := ⟨targetLng, targetLat⟩
      let interpolatedPos := slerpPosition sourcePos targetPos t
      let sourceBearing := jsOr newPosition.bearing 0
      let targetBearing := jsOr newPosition.targetBearing sourceBearing
      let interpolatedBearing :=
        if |targetBearing - sourceBearing| > 180 then
          let adjustedTarget :=
            if targetBearing > sourceBearing then targetBearing - 360
            else targetBearing + 360
          sourceBearing + (adjustedTarget - sourceBearing) * t
        else sourceBearing + (targetBearing - sourceBearing) * t
      let normalizedBearing := normalizeBearing interpolatedBearing
      { s with position := some interpolatedPos, bearing := normalizedBearing,
               lastTimestamp := timestamp }
  | _, _, _ =>
      match s.position with
      | none =>
          { s with position := some ⟨newPosition.lng, newPosition.lat⟩,
                   lastTimestamp := timestamp,
                   lastValidBearing := jsOr newPosition.bearing 0 }
      | some statePos =>
          let deltaTime := (timestamp - s.lastTimestamp) / 1000
          if deltaTime ≤ 0 then s
          else
            let newPos : GeoPoint := ⟨newPosition.lng, newPosition.lat⟩
            let distance := calculateDistance statePos newPos
            let bearingPair :=
              if distance > minSpeedThreshold then
                let nb := calculateBearing statePos newPos
                (nb, nb)
              else (s.lastValidBearing, s.lastValidBearing)
            let newVelocity := updateVelocity statePos newPos deltaTime
            let newAcceleration := updateAcceleration s.velocity newVelocity deltaTime
            let velocity : Vec2 :=
              ⟨smooth s.velocity.x newVelocity.x speedSmoothing,
               smooth s.velocity.y newVelocity.y speedSmoothing⟩
            let acceleration := clampAcceleration newAcceleration
            let bearing := smoothBearing s.bearing bearingPair.1 bearingSmoothing
            let speed0 := distance / deltaTime
            let speed := if speed0 > maxSpeed then maxSpeed else speed0
            let position : GeoPoint :=
              ⟨smooth statePos.lng newPosition.lng positionSmoothing,
               smooth statePos.lat newPosition.lat positionSmoothing⟩
            { position := some position, velocity := velocity,
              acceleration := acceleration, bearing := bearing, speed := speed,
              lastTimestamp := timestamp, lastValidBearing := bearingPair.2 }

theorem normalizeBearing_id {b : ℝ} (h1 : ¬ b > 360) (h2 : ¬ b < 0) :
    normalizeBearing b = b := by
  unfold normalizeBearing
  rw [subLoop_base h1, addLoop_base h2]

theorem jsOr_none (d : ℝ) : jsOr none d = d := rfl

theorem jsOr_some_ne {v d : ℝ} (h : v ≠ 0) : jsOr (some v) d = v := by
  show (if v = 0 then d else v) = v
  rw [if_neg h]

/-- C1 counterexample: on a fresh estimator, the first fix with bearing hint
90 and timestamp 1000 returns a pose whose bearing is 0, not 90: the hint is
stored only in lastValidBearing. -/
theorem c1_estimator_seed_counterexample :
    (processPosition initState ⟨7, 46, some 90, none, none, none, none⟩ 1000).bearing ≠ 90 := by
  have : (processPosition initState ⟨7, 46, some 90, none, none, none, none⟩ 1000).bearing = 0 := rfl
  rw [this]
  norm_num

/-- C1 amended: on a fresh estimator, the first ingestFix with raw position
p, bearing hint 90 and timestamp 1000 returns the seeded pose unsmoothed
with position = p, speed = 0, velocity and acceleration zero and
lastTimestamp = 1000; the bearing hint is stored in lastValidBearing = 90
while the returned pose bearing is 0. -/
theorem c1_estimator_seed_amended (lng lat : ℝ) :
    processPosition initState ⟨lng, lat, some 90, none, none, none, none⟩ 1000 =
      { position := some ⟨lng, lat⟩, velocity := ⟨0, 0⟩, acceleration := ⟨0, 0⟩,
        bearing := 0, speed := 0, lastTimestamp := 1000, lastValidBearing := 90 } := by
  have h : jsOr (some (90:ℝ)) 0 = 90 := jsOr_some_ne (by norm_num)
  simp only [processPosition, initState, h]

/-- C5: a second ingestFix with a non-increasing timestamp (deltaTime <= 0)
leaves the entire estimator state unchanged and returns the prior pose; the
case is silently absorbed rather than raised as an error. -/
theorem c5_monotonic_time_guard (s : EstState) (p : GeoPoint) (msg : PositionMsg)
    (timestamp : ℝ) (hpos : s.position = some p) (hts : timestamp ≤ s.lastTimestamp) :
    processPosition s msg timestamp = s := by
  have hd : (timestamp - s.lastTimestamp) / 1000 ≤ 0 := by
    apply div_nonpos_of_nonpos_of_nonneg <;> linarith
  unfold processPosition
  rw [hpos]
  exact if_pos hd

/-- C5 witness: the guard instantiated on a concrete seeded state and an
equal timestamp. -/
theorem c5_monotonic_time_guard_witness :
    (⟨some ⟨1, 2⟩, ⟨0, 0⟩, ⟨0, 0⟩, 45, 3, 1000, 45⟩ : EstState).position = some ⟨1, 2⟩ ∧
    (1000 : ℝ) ≤ (⟨some ⟨1, 2⟩, ⟨0, 0⟩, ⟨0, 0⟩, 45, 3, 1000, 45⟩ : EstState).lastTimestamp ∧
    processPosition ⟨some ⟨1, 2⟩, ⟨0, 0⟩, ⟨0, 0⟩, 45, 3, 1000, 45⟩
        ⟨5, 6, none, none, none, none, none⟩ 1000 =
      ⟨some ⟨1, 2⟩, ⟨0, 0⟩, ⟨0, 0⟩, 45, 3, 1000, 45⟩ :=
  ⟨rfl, by norm_num,
   c5_monotonic_time_guard _ ⟨1, 2⟩ _ _ rfl (by norm_num)⟩

/-- C2 counterexample: on a fresh estimator, a bracket-interpolation message
(t = 1, target (1,0), target bearing 90) makes the debug variant interpolate
(resulting bearing 90) while the non-debug variant, which has no
interpolation branch, seeds from the message as if it were a raw fix
(resulting bearing 0); the two computed states differ. -/
theorem c2_debug_variants_counterexample :
    processPositionDebug initState ⟨0, 0, none, some 1, some 1, some 0, some 90⟩ 5 ≠
      processPosition initState ⟨0, 0, none, some 1, some 1, some 0, some 90⟩ 5 := by
  have habs : ¬ (|(90:ℝ) - 0| > 180) := by
    rw [sub_zero, abs_of_nonneg (by norm_num : (0:ℝ) ≤ 90)]
    norm_num
  have hd : (processPositionDebug initState ⟨0, 0, none, some 1, some 1, some 0, some 90⟩ 5).bearing
      = 90 := by
    show normalizeBearing
      (if |jsOr (some 90) (jsOr none 0) - jsOr none 0| > 180 then
        (jsOr none 0 +
          ((if jsOr (some 90) (jsOr none 0) > jsOr none 0 then
              jsOr (some 90) (jsOr none 0) - 360
            else jsOr (some 90) (jsOr none 0) + 360) - jsOr none 0) * 1)
      else jsOr none 0 + (jsOr (some 90) (jsOr none 0) - jsOr none 0) * 1) = 90
    rw [jsOr_none, jsOr_some_ne (by norm_num : (90:ℝ) ≠ 0), if_neg habs]
    rw [show (0:ℝ) + (90 - 0) * 1 = 90 by norm_num]
    exact normalizeBearing_id (by norm_num) (by norm_num)
  have hn : (processPosition initState ⟨0, 0, none, some 1, some 1, some 0, some 90⟩ 5).bearing
      = 0 := rfl
  intro h
  rw [h, hn] at hd
  norm_num at hd

/-- C2 amended: the debug-instrumented and non-debug worker variants compute
the same updated state on every raw-fix message (one lacking any of the
t / targetLng / targetLat interpolation fields); they differ on
bracket-interpolation messages, which only the debug variant implements
(the non-debug variant processes such a message through its raw-fix path). -/
theorem c2_variants_agree_on_raw_fix (s : EstState) (m : PositionMsg) (ts : ℝ)
    (h : m.t = none ∨ m.targetLng = none ∨ m.targetLat = none) :
    processPositionDebug s m ts = processPosition s m ts := by
  obtain ⟨lng, lat, brg, t, tlng, tlat, tbrg⟩ := m
  rcases t with _ | tv
  · rfl
  rcases tlng with _ | lv
  · rfl
  rcases tlat with _ | av
  · rfl
  simp at h

/-- C2 witness: the agreement theorem instantiated on a concrete raw-fix
message with no interpolation fields. -/
theorem c2_variants_agree_witness :
    ((⟨1, 2, some 30, none, none, none, none⟩ : PositionMsg).t = none ∨
      (⟨1, 2, some 30, none, none, none, none⟩ : PositionMsg).targetLng = none ∨
      (⟨1, 2, some 30, none, none, none, none⟩ : PositionMsg).targetLat = none) ∧
    processPositionDebug initState ⟨1, 2, some 30, none, none, none, none⟩ 7 =
      processPosition initState ⟨1, 2, some 30, none, none, none, none⟩ 7 :=
  ⟨Or.inl rfl, c2_variants_agree_on_raw_fix initState _ 7 (Or.inl rfl)⟩

/-- Animation state of UnifiedAnimationController (this.state). -/
structure AnimationState where
  isPlaying : Bool
  currentTime : ℝ
  duration : ℝ
  speed : ℝ
  lastFrameTime : ℝ

/-- UnifiedAnimationController.setSpeed: assigns the multiplier to
this.state.speed with no validation. -/
def setSpeed (s : AnimationState) (speed : ℝ) : AnimationState :=
  { s with speed := speed }

/-- C3 counterexample: setSpeed(-1) on a state with speed 1 changes the
speed to -1, so a non-positive multiplier is not rejected and does not
leave the speed unchanged. -/
theorem c3_setSpeed_counterexample :
    (setSpeed ⟨false, 0, 10, 1, 0⟩ (-1)).speed ≠
      (⟨false, 0, 10, 1, 0⟩ : AnimationState).speed := by
  show (-1 : ℝ) ≠ 1
  norm_num

/-- C3 amended: setSpeed performs no validation at the API boundary: for
every multiplier, positive or not, it sets the animation speed to that
multiplier and leaves every other field of the animation state unchanged. -/
theorem c3_setSpeed_amended (s : AnimationState) (mult : ℝ) :
    (setSpeed s mult).speed = mult ∧
    (setSpeed s mult).isPlaying = s.isPlaying ∧
    (setSpeed s mult).currentTime = s.currentTime ∧
    (setSpeed s mult).duration = s.duration ∧
    (setSpeed s mult).lastFrameTime = s.lastFrameTime :=
  ⟨rfl, rfl, rfl, rfl, rfl⟩

/-- C7: whenever the unit-sphere dot product of the two input points
exceeds 0.9999, slerpPosition returns exactly the planar linear
interpolation of lng/lat, and in particular at t = 1/2 the planar
midpoint. -/
theorem c7_slerp_near_identical_fallback (a b : GeoPoint) (t : ℝ)
    (h : slerpDot a b > 0.9999) :
    slerpPosition a b t = lerpPosition a b t ∧
      slerpPosition a b (1/2) = ⟨(a.lng + b.lng) / 2, (a.lat + b.lat) / 2⟩ := by
  have hs : ∀ u : ℝ, slerpPosition a b u = lerpPosition a b u := by
    intro u
    unfold slerpPosition
    exact if_pos h
  have hmid : lerpPosition a b (1/2) = ⟨(a.lng + b.lng) / 2, (a.lat + b.lat) / 2⟩ := by
    unfold lerpPosition
    congr 1 <;> ring
  exact ⟨hs t, (hs (1/2)).trans hmid⟩

theorem sphereVec_origin : sphereVec ⟨0, 0⟩ = (1, 0, 0) := by
  unfold sphereVec toRadians
  rw [show ((90:ℝ) - (⟨0, 0⟩ : GeoPoint).lat) * (Real.pi / 180) = Real.pi / 2 by
        show ((90:ℝ) - 0) * (Real.pi / 180) = Real.pi / 2; ring,
      show ((⟨0, 0⟩ : GeoPoint).lng : ℝ) * (Real.pi / 180) = 0 by
        show ((0:ℝ)) * (Real.pi / 180) = 0; ring]
  simp [Real.sin_pi_div_two, Real.cos_pi_div_two, Real.cos_zero, Real.sin_zero]

/-- C7 witness: the fallback instantiated at two identical points, whose
unit-vector dot product is exactly 1. -/
theorem c7_slerp_fallback_witness :
    slerpDot ⟨0, 0⟩ ⟨0, 0⟩ > 0.9999 ∧
      slerpPosition ⟨0, 0⟩ ⟨0, 0⟩ (1/3) = lerpPosition ⟨0, 0⟩ ⟨0, 0⟩ (1/3) ∧
      slerpPosition ⟨0, 0⟩ ⟨0, 0⟩ (1/2) =
        ⟨((⟨0, 0⟩ : GeoPoint).lng + (⟨0, 0⟩ : GeoPoint).lng) / 2,
         ((⟨0, 0⟩ : GeoPoint).lat + (⟨0, 0⟩ : GeoPoint).lat) / 2⟩ := by
  have hdot : slerpDot ⟨0, 0⟩ ⟨0, 0⟩ > 0.9999 := by
    unfold slerpDot
    rw [sphereVec_origin]
    norm_num
  obtain ⟨h1, h2⟩ := c7_slerp_near_identical_fallback ⟨0, 0⟩ ⟨0, 0⟩ (1/3) hdot
  exact ⟨hdot, h1, h2⟩

/-- A GeoJSON track feature as consumed by
UnifiedAnimationController.updatePosition: point coordinates plus the
properties timestamp (ms) and bearing (degrees).  Modelled over the
rationals, which the integer millisecond timestamps and the rational
interpolation fractions of the code inhabit exactly. -/
structure TrackFeature where
  lng : ℚ
  lat : ℚ
  bearing : ℚ
  timestamp : ℚ
  deriving DecidableEq

/-- The bracket-search and interpolation-fraction core of
UnifiedAnimationController.updatePosition: targetTime from the track start
plus elapsed seconds times 1000; nextIndex is the index of the first
feature with timestamp strictly greater than targetTime (the list length
when none exists, as JS findIndex yields -1 and the code replaces it);
prevIndex = max(0, nextIndex - 1); next falls back to prev when nextIndex
is out of range; t = 0 when the bracket timestamps coincide, otherwise
(targetTime - prevTime) / (nextTime - prevTime).  Returns none for an
empty track (the code warns and returns without updating). -/
def updatePositionSample (features : List TrackFeature) (startMs : ℚ) (time : ℚ) :
    Option (TrackFeature × TrackFeature × ℚ) :=
  if features.isEmpty then none
  else
    let targetTime := startMs + time * 1000
    let nextIndex := features.findIdx (fun f => f.timestamp > targetTime)
    let prevIndex := nextIndex - 1
    match features.get? prevIndex with
    | none => none
    | some prev =>
        let next := (features.get? nextIndex).getD prev
        let prevTime := prev.timestamp
        let nextTime := next.timestamp
        let t := if prevTime = nextTime then 0
          else (targetTime - prevTime) / (nextTime - prevTime)
        some (prev, next, t)

/-- C8: on the 3-point track with timestamps [0, 1000, 3000] ms starting at
0, the elapsed-time query 1.5 s brackets between point 1 and point 2 with
interpolation fraction t = 1/4. -/
theorem c8_trackSampler_bracket :
    updatePositionSample
        [⟨0, 0, 0, 0⟩, ⟨1, 1, 45, 1000⟩, ⟨2, 2, 90, 3000⟩] 0 (3/2) =
      some (⟨1, 1, 45, 1000⟩, ⟨2, 2, 90, 3000⟩, 1/4) := by
  have ht : (0:ℚ) + 3/2 * 1000 = 1500 := by norm_num
  unfold updatePositionSample
  simp only [List.isEmpty, ht, List.findIdx, List.findIdx.go]
  norm_num [List.get?]

/-- Camera state of UnifiedAnimationController (this.camera): the lock flag
and the offset captured at lock engagement (x, y and the zoom level at
capture). -/
structure CameraState where
  isLocked : Bool
  offsetX : ℝ
  offsetY : ℝ
  offsetZoom : ℝ
  dampingRatio : ℝ

/-- UnifiedAnimationController.calculateCameraOffset: rotate the bearing so
that ahead points up-screen and scale by the zoom-dependent distance
2^(20 - zoom) times the zoom captured at lock engagement. -/
noncomputable def calculateCameraOffset (cam : CameraState) (bearing zoom : ℝ) : Vec2 :=
  let rad := (bearing - 90) * Real.pi / 180
  let distance := (2:ℝ) ^ ((20:ℝ) - zoom) * cam.offsetZoom
  ⟨Real.cos rad * distance, Real.sin rad * distance⟩

/-- The easeTo argument object built by UnifiedAnimationController.updateCamera. -/
structure CameraEase where
  centerLng : ℝ
  centerLat : ℝ
  bearing : ℝ
  pitch : ℝ
  duration : ℝ

/-- UnifiedAnimationController.updateCamera: the eased target center is the
vehicle position plus calculateCameraOffset, with the vehicle bearing, a
fixed pitch of 60 degrees and duration 0. -/
noncomputable def updateCamera (cam : CameraState) (position : GeoPoint)
    (bearing zoom : ℝ) : CameraEase :=
  let offset := calculateCameraOffset cam bearing zoom
  { centerLng := position.lng + offset.x, centerLat := position.lat + offset.y,
    bearing := bearing, pitch := 60, duration := 0 }

/-- The camera-update step at the end of handleWorkerMessage: updateCamera
runs only while the camera is locked. -/
noncomputable def cameraUpdateOnMessage (cam : CameraState) (position : GeoPoint)
    (bearing zoom : ℝ) : Option CameraEase :=
  if cam.isLocked then some (updateCamera cam position bearing zoom) else none

/-- C9: when the camera is locked, the eased camera pose centers on the
vehicle position offset by (cos(rad)*distance, sin(rad)*distance) with
rad = (bearing - 90) * pi / 180 and distance = 2^(20 - currentZoom) times
the zoom captured at lock engagement, applies the vehicle bearing, and uses
the fixed pitch 60. -/
theorem c9_camera_locked_target (cam : CameraState) (pos : GeoPoint)
    (bearing zoom : ℝ) (h : cam.isLocked = true) :
    cameraUpdateOnMessage cam pos bearing zoom =
      some { centerLng := pos.lng + Real.cos ((bearing - 90) * Real.pi / 180) *
               ((2:ℝ) ^ ((20:ℝ) - zoom) * cam.offsetZoom),
             centerLat := pos.lat + Real.sin ((bearing - 90) * Real.pi / 180) *
               ((2:ℝ) ^ ((20:ℝ) - zoom) * cam.offsetZoom),
             bearing := bearing, pitch := 60, duration := 0 } := by
  unfold cameraUpdateOnMessage
  rw [if_pos h]
  rfl

/-- C9 witness: the locked-camera formula instantiated at a concrete locked
camera, vehicle position, bearing and zoom. -/
theorem c9_camera_locked_target_witness :
    (⟨true, 0, 0, 2, 0.6⟩ : CameraState).isLocked = true ∧
    cameraUpdateOnMessage ⟨true, 0, 0, 2, 0.6⟩ ⟨10, 20⟩ 45 16 =
      some { centerLng := (10:ℝ) + Real.cos (((45:ℝ) - 90) * Real.pi / 180) *
               ((2:ℝ) ^ ((20:ℝ) - 16) * 2),
             centerLat := (20:ℝ) + Real.sin (((45:ℝ) - 90) * Real.pi / 180) *
               ((2:ℝ) ^ ((20:ℝ) - 16) * 2),
             bearing := 45, pitch := 60, duration := 0 } :=
  ⟨rfl, c9_camera_locked_target ⟨true, 0, 0, 2, 0.6⟩ ⟨10, 20⟩ 45 16 rfl⟩
